import Mathlib

/-!
Verification of the poll-voting backend (`src/backend/main.py`).

The MongoDB-backed state is embedded shallowly: each collection is a list of
documents, timestamps are integers (seconds), and every store operation of the
pipeline (`find_one`, `insert_one` with a unique index, `count_documents`,
`update_one` with a positional `$` increment) is translated into an explicit
function on that state.  The vote-admission pipeline `vote_poll` follows the
source line by line; `vote_ledger_and_update` is its tail from the ledger
insert onward, split off so that interleavings where the store changed between
validation and the ledger stage can be stated.
-/

namespace PollApp

/-- Rate-limit window in seconds; default of env var RATE_LIMIT_WINDOW_SECONDS. -/
def RATE_LIMIT_WINDOW_SECONDS : Int := 60

/-- Maximum attempts per window; default of env var RATE_LIMIT_MAX_ATTEMPTS. -/
def RATE_LIMIT_MAX_ATTEMPTS : Nat := 15

/-- Embedding of Python `str.strip()`: remove leading and trailing
whitespace characters. -/
def strip (s : String) : String :=
  ⟨((s.data.dropWhile Char.isWhitespace).reverse.dropWhile Char.isWhitespace).reverse⟩

/-- Embedding of Python `str.split(",")`, as a recursion over the
characters with the current entry accumulated in reverse: the result always
holds at least one (possibly empty) entry. -/
def split_comma_aux : List Char → List Char → List String
  | [], acc => [⟨acc.reverse⟩]
  | c :: rest, acc =>
    if c = ',' then ⟨acc.reverse⟩ :: split_comma_aux rest []
    else split_comma_aux rest (c :: acc)

/-- Embedding of Python `str.split(",")` on a string. -/
def split_comma (s : String) : List String :=
  split_comma_aux s.data []

/-- Embedding of `get_client_ip`: the forwarded-for header (empty string when
absent) is preferred — its first comma-separated entry, stripped — provided
that entry is non-empty; otherwise the transport-level peer address
(`request.client.host`, `none` when there is no client, possibly the empty
string); otherwise the sentinel "unknown". -/
def get_client_ip (forwarded_for : String) (client_host : Option String) : String :=
  if forwarded_for ≠ "" then
    if strip ((split_comma forwarded_for).headD "") ≠ "" then
      strip ((split_comma forwarded_for).headD "")
    else
      match client_host with
      | some h => if h ≠ "" then h else "unknown"
      | none => "unknown"
  else
    match client_host with
    | some h => if h ≠ "" then h else "unknown"
    | none => "unknown"

/-- Embedding of `hash_ip`: `hashlib.sha256(f"salt:ip").hexdigest()`.  The
SHA-256 hex digest is an external library routine, modelled as an abstract
function `digest` of the hashed text; `hash_ip` feeds it the salt and the
address joined by a colon. -/
def hash_ip (digest : String → String) (salt : String) (ip : String) : String :=
  digest (salt ++ ":" ++ ip)

/-- An option subdocument of a poll: `{"id": ..., "text": ..., "votes": ...}`.  -/
structure PollOption where
  id : String
  text : String
  votes : Nat
deriving DecidableEq, Repr

/-- A document of the `polls` collection. -/
structure Poll where
  id : String
  question : String
  created_at : Int
  updated_at : Int
  version : Nat
  total_votes : Nat
  options : List PollOption
deriving DecidableEq, Repr

/-- A document of the `votes` collection (the Ledger); unique index on
`(poll_id, voter_id)`. -/
structure Vote where
  poll_id : String
  option_id : String
  voter_id : String
  ip_hash : String
  created_at : Int
deriving DecidableEq, Repr

/-- A document of the `vote_attempts` collection. -/
structure VoteAttempt where
  poll_id : String
  ip_hash : String
  attempted_at : Int
deriving DecidableEq, Repr

/-- The durable store: the three collections used by the pipeline. -/
structure DB where
  polls : List Poll
  votes : List Vote
  vote_attempts : List VoteAttempt
deriving DecidableEq, Repr

/-- The empty store. -/
def DB.empty : DB := { polls := [], votes := [], vote_attempts := [] }

/-- Outcome of a vote request, mirroring the HTTP statuses of `vote_poll`:
404 Poll not found, 400 Option not found for this poll, 429 Too many vote
attempts, 409 You already voted on this poll, or 200 with the updated poll. -/
inductive VoteOutcome where
  | notFound
  | invalidOption
  | rateLimited
  | duplicateVote
  | accepted (snapshot : Poll)
deriving DecidableEq, Repr

/-- Whether an outcome is the 200 success case. -/
def VoteOutcome.isAccepted : VoteOutcome → Bool
  | .accepted _ => true
  | _ => false

/-- Embedding of `create_poll`: builds the poll document with version 1, zero
counters and zero-vote options (each option text paired with its generated
id), and inserts it.  `insert_one` on a duplicate `_id` raises instead of
inserting, modelled by the `none` result with the store unchanged; the random
`poll_id` and option ids are taken as arguments. -/
def create_poll (db : DB) (question : String) (texts : List String)
    (poll_id : String) (option_ids : List String) (t : Int) :
    Option Poll × DB :=
  if db.polls.any (fun p => p.id == poll_id) then
    (none, db)
  else
    let poll : Poll :=
      { id := poll_id
        question := question
        created_at := t
        updated_at := t
        version := 1
        total_votes := 0
        options := (texts.zip option_ids).map
          (fun pr => { id := pr.2, text := pr.1, votes := 0 }) }
    (some poll, { db with polls := db.polls ++ [poll] })

/-- The filter `{"_id": poll_id, "options.id": option_id}` used both by the
validation lookup and by the aggregate update: the document's id matches and
some option of the document has the given option id. -/
def poll_option_filter (poll_id option_id : String) (p : Poll) : Bool :=
  p.id == poll_id && p.options.any (fun o => o.id == option_id)

/-- The filter of the rate-limit count: same poll, same fingerprint, and
attempted within the window, `attempted_at ≥ t - RATE_LIMIT_WINDOW_SECONDS`. -/
def in_window (poll_id ip_digest : String) (t : Int) (a : VoteAttempt) : Bool :=
  a.poll_id == poll_id && a.ip_hash == ip_digest &&
    decide (t - RATE_LIMIT_WINDOW_SECONDS ≤ a.attempted_at)

/-- Embedding of `db.vote_attempts.insert_one(...)`: append the attempt
record of this request. -/
def log_attempt (db : DB) (poll_id ip_digest : String) (t : Int) : DB :=
  { db with vote_attempts := db.vote_attempts ++
      [{ poll_id := poll_id, ip_hash := ip_digest, attempted_at := t }] }

/-- The positional `$` update of `"options.$.votes"`: increment the votes of
the first option whose id matches. -/
def bump_option_first : List PollOption → String → List PollOption
  | [], _ => []
  | o :: rest, option_id =>
    if o.id == option_id then { o with votes := o.votes + 1 } :: rest
    else o :: bump_option_first rest option_id

/-- The `$inc`/`$set` document of the aggregate update applied to one matched
poll: the matched option's votes, the version and total_votes each grow by 1
and updated_at is set to the request time. -/
def bump_poll (p : Poll) (option_id : String) (t : Int) : Poll :=
  { p with
    options := bump_option_first p.options option_id
    version := p.version + 1
    total_votes := p.total_votes + 1
    updated_at := t }

/-- Embedding of `db.polls.update_one({"_id": poll_id, "options.id": option_id}, ...)`:
apply `bump_poll` to the first poll matching the filter; the first component
is `matched_count` (0 or 1). -/
def update_first_poll : List Poll → String → String → Int → Nat × List Poll
  | [], _, _, _ => (0, [])
  | p :: rest, poll_id, option_id, t =>
    if poll_option_filter poll_id option_id p then
      (1, bump_poll p option_id t :: rest)
    else
      ((update_first_poll rest poll_id option_id t).1,
       p :: (update_first_poll rest poll_id option_id t).2)

/-- Embedding of `db.votes.insert_one(...)` in the non-conflicting case:
append the ledger document of this vote. -/
def insert_vote (db : DB) (poll_id option_id voter_id ip_digest : String)
    (t : Int) : DB :=
  { db with votes := db.votes ++
      [{ poll_id := poll_id, option_id := option_id, voter_id := voter_id,
         ip_hash := ip_digest, created_at := t }] }

/-- The store after the aggregate `update_one`: polls replaced by the
positional update's result. -/
def apply_update (db : DB) (poll_id option_id : String) (t : Int) : DB :=
  { db with polls := (update_first_poll db.polls poll_id option_id t).2 }

/-- The tail of `vote_poll` from the ledger insert onward (the `try` block,
the aggregate update and the refetch), as a function of the store at that
point: the unique index on `(poll_id, voter_id)` turns `votes.insert_one`
into an atomic insert-if-absent raising `DuplicateKeyError` (409) on
conflict; a matched_count of 0 raises 400, with the inserted ledger document
left in place; otherwise the updated poll is refetched and returned. -/
def vote_ledger_and_update (db : DB) (poll_id option_id voter_id ip_digest : String)
    (t : Int) : VoteOutcome × DB :=
  if db.votes.any (fun v => v.poll_id == poll_id && v.voter_id == voter_id) then
    (.duplicateVote, db)
  else if (update_first_poll db.polls poll_id option_id t).1 == 0 then
    (.invalidOption, insert_vote db poll_id option_id voter_id ip_digest t)
  else
    match (apply_update (insert_vote db poll_id option_id voter_id ip_digest t)
        poll_id option_id t).polls.find? (fun p => p.id == poll_id) with
    | some p =>
      (.accepted p,
       apply_update (insert_vote db poll_id option_id voter_id ip_digest t)
         poll_id option_id t)
    | none =>
      (.notFound,
       apply_update (insert_vote db poll_id option_id voter_id ip_digest t)
         poll_id option_id t)

/-- Embedding of the whole `vote_poll` pipeline: validate that the poll
exists and owns the option in one filtered lookup (404 when the poll is
absent, 400 when the poll exists but the option is not its); append the
attempt record; count the attempts of this `(poll_id, ip_hash)` whose
`attempted_at` is at least `t - RATE_LIMIT_WINDOW_SECONDS` and answer 429
when the count exceeds `RATE_LIMIT_MAX_ATTEMPTS`; then run the ledger insert
and the aggregate update. -/
def vote_poll (db : DB) (poll_id option_id voter_id ip_digest : String)
    (t : Int) : VoteOutcome × DB :=
  match db.polls.find? (poll_option_filter poll_id option_id) with
  | none =>
    match db.polls.find? (fun p => p.id == poll_id) with
    | none => (.notFound, db)
    | some _ => (.invalidOption, db)
  | some _ =>
    if RATE_LIMIT_MAX_ATTEMPTS <
        (log_attempt db poll_id ip_digest t).vote_attempts.countP
          (in_window poll_id ip_digest t) then
      (.rateLimited, log_attempt db poll_id ip_digest t)
    else
      vote_ledger_and_update (log_attempt db poll_id ip_digest t)
        poll_id option_id voter_id ip_digest t

/-- The triggered/clear flag of each poll's `asyncio.Event` in the module
dict `poll_events`; an id with no entry stands for a fresh, unset event. -/
def PollEvents : Type := String → Bool

/-- The flag state with every event unset (fresh process). -/
def PollEvents.initial : PollEvents := fun _ => false

/-- Embedding of `notify_poll_change`: `upsert_poll_event(poll_id).set()`
marks the poll's event as triggered (and wakes everything awaiting it). -/
def notify_poll_change (events : PollEvents) (poll_id : String) : PollEvents :=
  fun q => if q == poll_id then true else events q

/-- Whether `await event.wait()` in `poll_events_stream` returns without
suspending: exactly when the poll's flag is already set. -/
def wait_returns_immediately (events : PollEvents) (poll_id : String) : Bool :=
  events poll_id

/-- One wake of the stream loop body: after `event.wait()` returns, the
consumer runs `event.clear()`, resetting the poll's flag. -/
def stream_wake_clear (events : PollEvents) (poll_id : String) : PollEvents :=
  fun q => if q == poll_id then false else events q

/-- The stores reachable by the API: the empty store, and anything produced
from a reachable store by a create-poll or a vote request. -/
inductive Reachable : DB → Prop where
  | init : Reachable DB.empty
  | create (db : DB) (question : String) (texts : List String) (poll_id : String)
      (option_ids : List String) (t : Int) : Reachable db →
      Reachable (create_poll db question texts poll_id option_ids t).2
  | vote (db : DB) (poll_id option_id voter_id ip_digest : String) (t : Int) :
      Reachable db →
      Reachable (vote_poll db poll_id option_id voter_id ip_digest t).2

/-- A freshly created two-option demo poll store, for concrete witnesses. -/
def demo_db0 : DB := (create_poll DB.empty "q" ["a", "b"] "p" ["oa", "ob"] 0).2

/-- The demo store after one accepted vote by voter v1. -/
def demo_db1 : DB := (vote_poll demo_db0 "p" "oa" "v1" "f1" 1).2

/-- The demo store after 15 vote requests of distinct voters sharing one
fingerprint, all inside one rate window. -/
def demo_db15 : DB :=
  (List.range 15).foldl
    (fun d i => (vote_poll d "p" "oa" ("v" ++ toString i) "f1" 1).2) demo_db0

/-- The per-poll consistency facts maintained by the pipeline: poll ids are
pairwise distinct, total_votes is the sum of the option counters, version is
one more than the poll's ledger count, and every ledger entry points at an
existing poll. -/
def DBInv (db : DB) : Prop :=
  (db.polls.map Poll.id).Nodup ∧
  (∀ p ∈ db.polls, p.total_votes = (p.options.map PollOption.votes).sum) ∧
  (∀ p ∈ db.polls, p.version = 1 + db.votes.countP (fun v => v.poll_id == p.id)) ∧
  (∀ v ∈ db.votes, db.polls.any (fun p => p.id == v.poll_id) = true)

/-- Frame relation between an option before and after a vote for option id
`oid`: identity and text are preserved, and the votes counter of any option
other than the chosen one is preserved. -/
def option_frame (oid : String) (o o' : PollOption) : Prop :=
  o'.id = o.id ∧ o'.text = o.text ∧ (o.id ≠ oid → o'.votes = o.votes)

/-- Frame relation between a poll before and after a vote for `(pid, oid)`:
id, question and creation time are preserved, the options are pairwise in
`option_frame`, and a poll other than the target is wholly unchanged. -/
def poll_frame (pid oid : String) (p p' : Poll) : Prop :=
  p'.id = p.id ∧ p'.question = p.question ∧ p'.created_at = p.created_at ∧
  List.Forall₂ (option_frame oid) p.options p'.options ∧
  (p.id ≠ pid → p' = p)

theorem bump_poll_id (p : Poll) (oid : String) (t : Int) :
    (bump_poll p oid t).id = p.id := rfl

theorem bump_option_first_map_id (l : List PollOption) (oid : String) :
    (bump_option_first l oid).map PollOption.id = l.map PollOption.id := by
  induction l with
  | nil => rfl
  | cons o rest ih => cases h : o.id == oid <;> simp [bump_option_first, h, ih]

theorem bump_option_first_map_text (l : List PollOption) (oid : String) :
    (bump_option_first l oid).map PollOption.text = l.map PollOption.text := by
  induction l with
  | nil => rfl
  | cons o rest ih => cases h : o.id == oid <;> simp [bump_option_first, h, ih]

theorem bump_option_first_sum (l : List PollOption) (oid : String)
    (h : l.any (fun o => o.id == oid) = true) :
    ((bump_option_first l oid).map PollOption.votes).sum
      = (l.map PollOption.votes).sum + 1 := by
  induction l with
  | nil => simp at h
  | cons o rest ih =>
    cases ho : o.id == oid
    · have hrest : rest.any (fun o => o.id == oid) = true := by simpa [ho] using h
      simp [bump_option_first, ho, ih hrest]
      omega
    · simp [bump_option_first, ho]
      omega

theorem update_first_poll_map_id (ps : List Poll) (pid oid : String) (t : Int) :
    (update_first_poll ps pid oid t).2.map Poll.id = ps.map Poll.id := by
  induction ps with
  | nil => rfl
  | cons p rest ih =>
    cases h : poll_option_filter pid oid p <;>
      simp [update_first_poll, h, ih, bump_poll]

theorem update_first_poll_not_match (ps : List Poll) (pid oid : String) (t : Int)
    (h : ps.any (poll_option_filter pid oid) = false) :
    update_first_poll ps pid oid t = (0, ps) := by
  induction ps with
  | nil => rfl
  | cons p rest ih =>
    simp only [List.any_cons, Bool.or_eq_false_iff] at h
    simp [update_first_poll, h.1, ih h.2]

theorem update_first_poll_fst (ps : List Poll) (pid oid : String) (t : Int)
    (h : ps.any (poll_option_filter pid oid) = true) :
    (update_first_poll ps pid oid t).1 = 1 := by
  induction ps with
  | nil => simp at h
  | cons p rest ih =>
    cases hm : poll_option_filter pid oid p
    · have hrest : rest.any (poll_option_filter pid oid) = true := by simpa [hm] using h
      simp [update_first_poll, hm, ih hrest]
    · simp [update_first_poll, hm]

theorem update_first_poll_any_id (ps : List Poll) (pid oid : String) (t : Int)
    (h : (update_first_poll ps pid oid t).1 ≠ 0) :
    (update_first_poll ps pid oid t).2.any (fun p => p.id == pid) = true := by
  induction ps with
  | nil => simp [update_first_poll] at h
  | cons p rest ih =>
    cases hm : poll_option_filter pid oid p
    · have h' : (update_first_poll rest pid oid t).1 ≠ 0 := by
        simpa [update_first_poll, hm] using h
      simp [update_first_poll, hm, List.any_cons, ih h']
    · have hp : (p.id == pid) = true := by
        have hm' := hm
        simp only [poll_option_filter, Bool.and_eq_true] at hm'
        exact hm'.1
      simp [update_first_poll, hm, bump_poll, hp]

theorem map_update_id_of_no_match (rest : List Poll) (pid oid : String) (t : Int)
    (h : ∀ q ∈ rest, q.id ≠ pid) :
    rest.map (fun p => if p.id = pid then bump_poll p oid t else p) = rest := by
  induction rest with
  | nil => rfl
  | cons q rest ih =>
    simp [h q (by simp), ih (fun r hr => h r (by simp [hr]))]

theorem update_first_poll_snd (ps : List Poll) (pid oid : String) (t : Int)
    (hnd : (ps.map Poll.id).Nodup)
    (h : ps.any (poll_option_filter pid oid) = true) :
    (update_first_poll ps pid oid t).2
      = ps.map (fun p => if p.id = pid then bump_poll p oid t else p) := by
  induction ps with
  | nil => simp at h
  | cons p rest ih =>
    have hnd' : p.id ∉ rest.map Poll.id ∧ (rest.map Poll.id).Nodup := by
      simpa [List.nodup_cons] using hnd
    cases hm : poll_option_filter pid oid p
    · have hrest : rest.any (poll_option_filter pid oid) = true := by simpa [hm] using h
      have hpid : p.id ≠ pid := by
        intro hp1
        obtain ⟨q, hqmem, hq⟩ := List.any_eq_true.mp hrest
        have hq1 : q.id = pid := by
          simp only [poll_option_filter, Bool.and_eq_true, beq_iff_eq] at hq
          exact hq.1
        exact hnd'.1 (by
          rw [hp1, ← hq1]
          exact List.mem_map_of_mem Poll.id hqmem)
      simp [update_first_poll, hm, hpid, ih hnd'.2 hrest]
    · have hp : p.id = pid := by
        have hm' := hm
        simp only [poll_option_filter, Bool.and_eq_true, beq_iff_eq] at hm'
        exact hm'.1
      have hrest_id : ∀ q ∈ rest, q.id ≠ pid := by
        intro q hq hq1
        exact hnd'.1 (by
          rw [hp, ← hq1]
          exact List.mem_map_of_mem Poll.id hq)
      simp [update_first_poll, hm, hp, map_update_id_of_no_match rest pid oid t hrest_id]

theorem in_window_self (pid ip : String) (t : Int) :
    in_window pid ip t { poll_id := pid, ip_hash := ip, attempted_at := t } = true := by
  simp [in_window, RATE_LIMIT_WINDOW_SECONDS]

theorem countP_log_attempt (db : DB) (pid ip : String) (t : Int) :
    (log_attempt db pid ip t).vote_attempts.countP (in_window pid ip t)
      = db.vote_attempts.countP (in_window pid ip t) + 1 := by
  simp [log_attempt, List.countP_append, List.countP_cons, in_window_self]

theorem vote_poll_of_invalid (db : DB) (pid oid vid ip : String) (t : Int)
    (hval : db.polls.any (poll_option_filter pid oid) = false) :
    vote_poll db pid oid vid ip t =
      match db.polls.find? (fun p => p.id == pid) with
      | none => (.notFound, db)
      | some _ => (.invalidOption, db) := by
  have hfind : db.polls.find? (poll_option_filter pid oid) = none := by
    rw [List.find?_eq_none]
    intro x hx
    exact (List.any_eq_false.mp hval) x hx
  unfold vote_poll
  rw [hfind]

theorem vote_poll_of_valid (db : DB) (pid oid vid ip : String) (t : Int)
    (hval : db.polls.any (poll_option_filter pid oid) = true) :
    vote_poll db pid oid vid ip t =
      if RATE_LIMIT_MAX_ATTEMPTS <
          db.vote_attempts.countP (in_window pid ip t) + 1 then
        (.rateLimited, log_attempt db pid ip t)
      else
        vote_ledger_and_update (log_attempt db pid ip t) pid oid vid ip t := by
  obtain ⟨x, hx, hpx⟩ := List.any_eq_true.mp hval
  cases hfind : db.polls.find? (poll_option_filter pid oid) with
  | none => exact absurd hpx ((List.find?_eq_none.mp hfind) x hx)
  | some q =>
    unfold vote_poll
    rw [hfind, countP_log_attempt]

theorem vote_ledger_of_duplicate (db : DB) (pid oid vid ip : String) (t : Int)
    (hdup : db.votes.any (fun v => v.poll_id == pid && v.voter_id == vid) = true) :
    vote_ledger_and_update db pid oid vid ip t = (.duplicateVote, db) := by
  unfold vote_ledger_and_update
  simp [hdup]

theorem vote_ledger_of_no_match (db : DB) (pid oid vid ip : String) (t : Int)
    (hdup : db.votes.any (fun v => v.poll_id == pid && v.voter_id == vid) = false)
    (hmatch : db.polls.any (poll_option_filter pid oid) = false) :
    vote_ledger_and_update db pid oid vid ip t =
      (.invalidOption, insert_vote db pid oid vid ip t) := by
  unfold vote_ledger_and_update
  simp [hdup, update_first_poll_not_match db.polls pid oid t hmatch]

theorem vote_ledger_polls_of_not_accepted (db : DB) (pid oid vid ip : String) (t : Int)
    (h : (vote_ledger_and_update db pid oid vid ip t).1.isAccepted = false) :
    (vote_ledger_and_update db pid oid vid ip t).2.polls = db.polls := by
  unfold vote_ledger_and_update at h ⊢
  cases hdup : db.votes.any (fun v => v.poll_id == pid && v.voter_id == vid)
  · simp only [hdup, Bool.false_eq_true, if_false] at h ⊢
    cases hm : (update_first_poll db.polls pid oid t).1 == 0
    · simp only [hm, Bool.false_eq_true, if_false] at h ⊢
      have hfstne : (update_first_poll db.polls pid oid t).1 ≠ 0 := by simpa using hm
      have hany := update_first_poll_any_id db.polls pid oid t hfstne
      obtain ⟨q, hq, hqid⟩ := List.any_eq_true.mp hany
      cases hfind : (apply_update (insert_vote db pid oid vid ip t) pid oid t).polls.find?
          (fun p => p.id == pid) with
      | none => exact absurd hqid ((List.find?_eq_none.mp hfind) q hq)
      | some p =>
        rw [hfind] at h
        simp [VoteOutcome.isAccepted] at h
    · simp only [hm, if_true] at h ⊢
      rfl
  · simp only [hdup, if_true] at h ⊢

theorem vote_poll_polls_of_not_accepted (db : DB) (pid oid vid ip : String) (t : Int)
    (h : (vote_poll db pid oid vid ip t).1.isAccepted = false) :
    (vote_poll db pid oid vid ip t).2.polls = db.polls := by
  cases hval : db.polls.any (poll_option_filter pid oid)
  · rw [vote_poll_of_invalid db pid oid vid ip t hval]
    cases hf : db.polls.find? (fun p => p.id == pid) <;> simp [hf]
  · rw [vote_poll_of_valid db pid oid vid ip t hval] at h ⊢
    by_cases hrl : RATE_LIMIT_MAX_ATTEMPTS <
        db.vote_attempts.countP (in_window pid ip t) + 1
    · simp [hrl, log_attempt]
    · rw [if_neg hrl] at h ⊢
      have hpp := vote_ledger_polls_of_not_accepted (log_attempt db pid ip t) pid oid vid ip t h
      simpa [log_attempt] using hpp

theorem sum_votes_zero (l : List (String × String)) :
    (l.map (PollOption.votes ∘ fun pr =>
      ({ id := pr.2, text := pr.1, votes := 0 } : PollOption))).sum = 0 := by
  induction l with
  | nil => rfl
  | cons a l ih => simpa using ih

theorem any_id_iff_mem_map (l : List Poll) (x : String) :
    (l.any (fun p => p.id == x) = true) ↔ x ∈ l.map Poll.id := by
  constructor
  · intro hl
    obtain ⟨p, hp, hpe⟩ := List.any_eq_true.mp hl
    exact List.mem_map.mpr ⟨p, hp, by simpa using hpe⟩
  · intro hl
    obtain ⟨p, hp, hpe⟩ := List.mem_map.mp hl
    exact List.any_eq_true.mpr ⟨p, hp, by simp [hpe]⟩

theorem any_id_eq_of_map_id_eq (l₁ l₂ : List Poll) (x : String)
    (h : l₁.map Poll.id = l₂.map Poll.id) :
    l₁.any (fun p => p.id == x) = l₂.any (fun p => p.id == x) := by
  cases h2 : l₂.any (fun p => p.id == x)
  · cases h1 : l₁.any (fun p => p.id == x)
    · rfl
    · have hmem := (any_id_iff_mem_map l₁ x).mp h1
      rw [h] at hmem
      rw [(any_id_iff_mem_map l₂ x).mpr hmem] at h2
      exact absurd h2 (by simp)
  · have hmem := (any_id_iff_mem_map l₂ x).mp h2
    rw [← h] at hmem
    exact (any_id_iff_mem_map l₁ x).mpr hmem

theorem any_id_of_any_filter (ps : List Poll) (pid oid : String)
    (h : ps.any (poll_option_filter pid oid) = true) :
    ps.any (fun p => p.id == pid) = true := by
  obtain ⟨p, hp, hpf⟩ := List.any_eq_true.mp h
  refine List.any_eq_true.mpr ⟨p, hp, ?_⟩
  simp only [poll_option_filter, Bool.and_eq_true] at hpf
  exact hpf.1

theorem vote_ledger_of_new (db : DB) (pid oid vid ip : String) (t : Int)
    (hdup : db.votes.any (fun v => v.poll_id == pid && v.voter_id == vid) = false)
    (hmatch : db.polls.any (poll_option_filter pid oid) = true) :
    ∃ p, vote_ledger_and_update db pid oid vid ip t =
      (.accepted p, apply_update (insert_vote db pid oid vid ip t) pid oid t) := by
  have hfst := update_first_poll_fst db.polls pid oid t hmatch
  have hfstne : (update_first_poll db.polls pid oid t).1 ≠ 0 := by simp [hfst]
  have hany := update_first_poll_any_id db.polls pid oid t hfstne
  obtain ⟨q, hq, hqid⟩ := List.any_eq_true.mp hany
  unfold vote_ledger_and_update
  simp only [hdup, Bool.false_eq_true, if_false, hfst]
  cases hfind : (apply_update (insert_vote db pid oid vid ip t) pid oid t).polls.find?
      (fun p => p.id == pid) with
  | none => exact absurd hqid ((List.find?_eq_none.mp hfind) q hq)
  | some p => exact ⟨p, by simp [hfind]⟩

theorem DBInv_empty : DBInv DB.empty := by
  simp [DBInv, DB.empty]

theorem DBInv_create (db : DB) (hinv : DBInv db) (q : String) (texts : List String)
    (pid : String) (oids : List String) (t : Int) :
    DBInv (create_poll db q texts pid oids t).2 := by
  obtain ⟨hnd, hsum, hver, href⟩ := hinv
  unfold create_poll
  cases hguard : db.polls.any (fun p => p.id == pid)
  · simp only [hguard, Bool.false_eq_true, if_false]
    have hfresh : pid ∉ db.polls.map Poll.id := by
      intro hmem
      obtain ⟨p, hp, hpe⟩ := List.mem_map.mp hmem
      have hfp := (List.any_eq_false.mp hguard) p hp
      simp [hpe] at hfp
    refine ⟨?_, ?_, ?_, ?_⟩
    · rw [List.map_append]
      refine List.Nodup.append hnd (by simp) ?_
      simpa [List.disjoint_singleton] using hfresh
    · intro p hp
      rcases List.mem_append.mp hp with hmem | hmem
      · exact hsum p hmem
      · simp at hmem
        subst hmem
        simp [sum_votes_zero (texts.zip oids)]
    · intro p hp
      rcases List.mem_append.mp hp with hmem | hmem
      · exact hver p hmem
      · simp at hmem
        subst hmem
        have hz : db.votes.countP (fun v => v.poll_id == pid) = 0 := by
          rw [List.countP_eq_zero]
          intro v hv hvp
          have hvp' : v.poll_id = pid := by simpa using hvp
          have href' := href v hv
          rw [hvp'] at href'
          obtain ⟨p', hp', hpe'⟩ := List.any_eq_true.mp href'
          exact absurd hpe' ((List.any_eq_false.mp hguard) p' hp')
        simp [hz]
    · intro v hv
      have href' := href v hv
      simp only [List.any_append, href', Bool.true_or]
  · simp only [hguard, if_true]
    exact ⟨hnd, hsum, hver, href⟩

theorem DBInv_vote (db : DB) (hinv : DBInv db) (pid oid vid ip : String) (t : Int) :
    DBInv (vote_poll db pid oid vid ip t).2 := by
  obtain ⟨hnd, hsum, hver, href⟩ := hinv
  cases hval : db.polls.any (poll_option_filter pid oid)
  · rw [vote_poll_of_invalid db pid oid vid ip t hval]
    cases hf : db.polls.find? (fun p => p.id == pid) <;>
      exact ⟨hnd, hsum, hver, href⟩
  · rw [vote_poll_of_valid db pid oid vid ip t hval]
    by_cases hrl : RATE_LIMIT_MAX_ATTEMPTS <
        db.vote_attempts.countP (in_window pid ip t) + 1
    · rw [if_pos hrl]
      exact ⟨hnd, hsum, hver, href⟩
    · rw [if_neg hrl]
      cases hdup : db.votes.any (fun v => v.poll_id == pid && v.voter_id == vid)
      · obtain ⟨pw, hled⟩ :=
          vote_ledger_of_new (log_attempt db pid ip t) pid oid vid ip t hdup hval
        rw [hled]
        have hsnd := update_first_poll_snd db.polls pid oid t hnd hval
        simp only [apply_update, insert_vote, log_attempt]
        refine ⟨?_, ?_, ?_, ?_⟩
        · rw [update_first_poll_map_id]
          exact hnd
        · intro p' hp'
          rw [hsnd] at hp'
          obtain ⟨p0, hp0, hp0e⟩ := List.mem_map.mp hp'
          by_cases hid : p0.id = pid
          · rw [← hp0e, if_pos hid]
            obtain ⟨pm, hpm, hpmf⟩ := List.any_eq_true.mp hval
            simp only [poll_option_filter, Bool.and_eq_true, beq_iff_eq] at hpmf
            have hpme : pm = p0 :=
              List.inj_on_of_nodup_map hnd hpm hp0 (by rw [hpmf.1, hid])
            have hopt : p0.options.any (fun o => o.id == oid) = true := by
              rw [← hpme]
              exact hpmf.2
            have hbs := bump_option_first_sum p0.options oid hopt
            simp [bump_poll, hbs, hsum p0 hp0]
          · rw [← hp0e, if_neg hid]
            exact hsum p0 hp0
        · intro p' hp'
          rw [hsnd] at hp'
          obtain ⟨p0, hp0, hp0e⟩ := List.mem_map.mp hp'
          rw [List.countP_append]
          by_cases hid : p0.id = pid
          · rw [← hp0e, if_pos hid]
            have hone : ([{ poll_id := pid, option_id := oid, voter_id := vid,
                            ip_hash := ip, created_at := t }] : List Vote).countP
                  (fun v => v.poll_id == (bump_poll p0 oid t).id) = 1 := by
              simp [bump_poll, hid]
            rw [hone]
            have hsame : db.votes.countP (fun v => v.poll_id == (bump_poll p0 oid t).id)
                = db.votes.countP (fun v => v.poll_id == p0.id) := by
              simp [bump_poll]
            rw [hsame]
            have hv0 := hver p0 hp0
            simp [bump_poll, hv0]
            omega
          · rw [← hp0e, if_neg hid]
            have hzero : ([{ poll_id := pid, option_id := oid, voter_id := vid,
                             ip_hash := ip, created_at := t }] : List Vote).countP
                  (fun v => v.poll_id == p0.id) = 0 := by
              simp
              exact fun hc => absurd hc.symm hid
            rw [hzero]
            simpa using hver p0 hp0
        · intro v hv
          have hmap := update_first_poll_map_id db.polls pid oid t
          rcases List.mem_append.mp hv with hvold | hvnew
          · rw [any_id_eq_of_map_id_eq _ _ _ hmap]
            exact href v hvold
          · simp at hvnew
            subst hvnew
            rw [any_id_eq_of_map_id_eq _ _ _ hmap]
            exact any_id_of_any_filter db.polls pid oid hval
      · rw [vote_ledger_of_duplicate (log_attempt db pid ip t) pid oid vid ip t hdup]
        exact ⟨hnd, hsum, hver, href⟩

theorem reachable_DBInv (db : DB) (h : Reachable db) : DBInv db := by
  induction h with
  | init => exact DBInv_empty
  | create db q texts pid oids t _ ih => exact DBInv_create db ih q texts pid oids t
  | vote db pid oid vid ip t _ ih => exact DBInv_vote db ih pid oid vid ip t

theorem vote_ledger_not_rateLimited (db : DB) (pid oid vid ip : String) (t : Int) :
    (vote_ledger_and_update db pid oid vid ip t).1 ≠ .rateLimited := by
  unfold vote_ledger_and_update
  cases hdup : db.votes.any (fun v => v.poll_id == pid && v.voter_id == vid)
  · simp only [hdup, Bool.false_eq_true, if_false]
    cases hm : (update_first_poll db.polls pid oid t).1 == 0
    · simp only [hm, Bool.false_eq_true, if_false]
      cases hfind : (apply_update (insert_vote db pid oid vid ip t) pid oid t).polls.find?
          (fun p => p.id == pid) <;> simp [hfind]
    · simp [hm]
  · simp [hdup]

theorem vote_ledger_attempts (db : DB) (pid oid vid ip : String) (t : Int) :
    (vote_ledger_and_update db pid oid vid ip t).2.vote_attempts = db.vote_attempts := by
  unfold vote_ledger_and_update
  cases hdup : db.votes.any (fun v => v.poll_id == pid && v.voter_id == vid)
  · simp only [hdup, Bool.false_eq_true, if_false]
    cases hm : (update_first_poll db.polls pid oid t).1 == 0
    · simp only [hm, Bool.false_eq_true, if_false]
      cases hfind : (apply_update (insert_vote db pid oid vid ip t) pid oid t).polls.find?
          (fun p => p.id == pid) <;> simp [hfind, apply_update, insert_vote]
    · simp [hm, insert_vote]
  · simp [hdup]

theorem option_frame_forall₂_refl (oid : String) (l : List PollOption) :
    List.Forall₂ (option_frame oid) l l :=
  List.forall₂_same.mpr (fun _ _ => ⟨rfl, rfl, fun _ => rfl⟩)

theorem option_frame_forall₂_bump (oid : String) (l : List PollOption) :
    List.Forall₂ (option_frame oid) l (bump_option_first l oid) := by
  induction l with
  | nil => exact List.Forall₂.nil
  | cons o rest ih =>
    cases ho : o.id == oid
    · simp only [bump_option_first, ho, Bool.false_eq_true, if_false]
      exact List.Forall₂.cons ⟨rfl, rfl, fun _ => rfl⟩ ih
    · simp only [bump_option_first, ho, if_true]
      refine List.Forall₂.cons ⟨rfl, rfl, fun hne => absurd (by simpa using ho) hne⟩ ?_
      exact option_frame_forall₂_refl oid rest

theorem poll_frame_forall₂_refl (pid oid : String) (ps : List Poll) :
    List.Forall₂ (poll_frame pid oid) ps ps :=
  List.forall₂_same.mpr
    (fun p _ => ⟨rfl, rfl, rfl, option_frame_forall₂_refl oid p.options, fun _ => rfl⟩)

theorem poll_frame_forall₂_update (ps : List Poll) (pid oid : String) (t : Int) :
    List.Forall₂ (poll_frame pid oid) ps (update_first_poll ps pid oid t).2 := by
  induction ps with
  | nil => exact List.Forall₂.nil
  | cons p rest ih =>
    cases hm : poll_option_filter pid oid p
    · simp only [update_first_poll, hm, Bool.false_eq_true, if_false]
      exact List.Forall₂.cons
        ⟨rfl, rfl, rfl, option_frame_forall₂_refl oid p.options, fun _ => rfl⟩ ih
    · simp only [update_first_poll, hm, if_true]
      have hp : p.id = pid := by
        have hm' := hm
        simp only [poll_option_filter, Bool.and_eq_true, beq_iff_eq] at hm'
        exact hm'.1
      refine List.Forall₂.cons
        ⟨rfl, rfl, rfl, option_frame_forall₂_bump oid p.options, fun hne => absurd hp hne⟩ ?_
      exact poll_frame_forall₂_refl pid oid rest

/-- C1: when a vote for this poll by this voter is already in the ledger, a
further vote request — on a valid option and under the rate limit — returns
DuplicateVote (409) and leaves the poll aggregate completely unchanged: the
pipeline halts before any aggregate mutation. -/
theorem duplicate_vote_halts_pipeline (db : DB) (pid oid vid ip : String) (t : Int)
    (hval : db.polls.any (poll_option_filter pid oid) = true)
    (hrate : db.vote_attempts.countP (in_window pid ip t) + 1 ≤ RATE_LIMIT_MAX_ATTEMPTS)
    (hdup : db.votes.any (fun v => v.poll_id == pid && v.voter_id == vid) = true) :
    (vote_poll db pid oid vid ip t).1 = .duplicateVote ∧
    (vote_poll db pid oid vid ip t).2.polls = db.polls := by
  rw [vote_poll_of_valid db pid oid vid ip t hval, if_neg (by omega)]
  rw [vote_ledger_of_duplicate (log_attempt db pid ip t) pid oid vid ip t hdup]
  exact ⟨rfl, rfl⟩

/-- C1 witness: in the demo store where voter v1 already voted on poll p,
v1's second vote request yields DuplicateVote with the polls unchanged. -/
theorem duplicate_vote_halts_pipeline_witness :
    (vote_poll demo_db1 "p" "oa" "v1" "f1" 2).1 = .duplicateVote ∧
    (vote_poll demo_db1 "p" "oa" "v1" "f1" 2).2.polls = demo_db1.polls :=
  duplicate_vote_halts_pipeline demo_db1 "p" "oa" "v1" "f1" 2
    (by decide) (by decide) (by decide)

/-- C2: in every reachable store — the fresh store, and after any sequence
of poll creations and vote requests — each poll's total_votes equals the sum
of its options' votes counters. -/
theorem total_votes_eq_sum_option_votes (db : DB) (hr : Reachable db) :
    ∀ p ∈ db.polls, p.total_votes = (p.options.map PollOption.votes).sum :=
  (reachable_DBInv db hr).2.1

/-- C2 witness: in the demo store reached by one creation and one accepted
vote, every poll satisfies the total-equals-sum invariant. -/
theorem total_votes_eq_sum_option_votes_witness :
    demo_db1.polls.all
      (fun p => p.total_votes == (p.options.map PollOption.votes).sum) = true := by
  have h := total_votes_eq_sum_option_votes demo_db1
    (Reachable.vote demo_db0 "p" "oa" "v1" "f1" 1
      (Reachable.create DB.empty "q" ["a", "b"] "p" ["oa", "ob"] 0 Reachable.init))
  rw [List.all_eq_true]
  intro p hp
  simp [h p hp]

/-- C3: for a request on an existing poll and option, the outcome is
RateLimited exactly when the in-window attempt count for this poll and
fingerprint — current attempt included, window `t - RATE_LIMIT_WINDOW_SECONDS`
— exceeds RATE_LIMIT_MAX_ATTEMPTS, and a rate-limited request records no
vote and mutates no poll. -/
theorem rate_limited_iff_window_count_exceeds (db : DB) (pid oid vid ip : String)
    (t : Int) (hval : db.polls.any (poll_option_filter pid oid) = true) :
    ((vote_poll db pid oid vid ip t).1 = .rateLimited ↔
      RATE_LIMIT_MAX_ATTEMPTS < db.vote_attempts.countP (in_window pid ip t) + 1) ∧
    ((vote_poll db pid oid vid ip t).1 = .rateLimited →
      (vote_poll db pid oid vid ip t).2.votes = db.votes ∧
      (vote_poll db pid oid vid ip t).2.polls = db.polls) := by
  rw [vote_poll_of_valid db pid oid vid ip t hval]
  by_cases hrl : RATE_LIMIT_MAX_ATTEMPTS < db.vote_attempts.countP (in_window pid ip t) + 1
  · rw [if_pos hrl]
    exact ⟨⟨fun _ => hrl, fun _ => rfl⟩, fun _ => ⟨rfl, rfl⟩⟩
  · rw [if_neg hrl]
    refine ⟨⟨fun hcon => ?_, fun hc => absurd hc hrl⟩, fun hcon => ?_⟩
    · exact absurd hcon (vote_ledger_not_rateLimited (log_attempt db pid ip t) pid oid vid ip t)
    · exact absurd hcon (vote_ledger_not_rateLimited (log_attempt db pid ip t) pid oid vid ip t)

/-- C3 witness: after 15 requests of one fingerprint inside the window all
15 votes were admitted, and the 16th request of that fingerprint — by a
fresh voter — is RateLimited and records no vote. -/
theorem rate_limited_iff_window_count_exceeds_witness :
    demo_db15.votes.length = 15 ∧
    (vote_poll demo_db15 "p" "oa" "v99" "f1" 2).1 = .rateLimited ∧
    (vote_poll demo_db15 "p" "oa" "v99" "f1" 2).2.votes = demo_db15.votes := by
  have h := rate_limited_iff_window_count_exceeds demo_db15 "p" "oa" "v99" "f1" 2 (by decide)
  have hrl := h.1.mpr (by decide)
  exact ⟨by decide, hrl, (h.2 hrl).1⟩

/-- C4 counterexample: a vote request whose option id does not belong to the
poll ends InvalidOption and appends no Vote Attempt record — the attempt log
insert sits after option validation — refuting that every request appends
exactly one attempt record regardless of outcome. -/
theorem invalid_option_request_logs_no_attempt :
    (vote_poll demo_db0 "p" "zz" "v1" "f1" 1).1 = .invalidOption ∧
    (vote_poll demo_db0 "p" "zz" "v1" "f1" 1).2.vote_attempts = [] := by
  exact ⟨by decide, by decide⟩

/-- C4 amended: every vote request that passes option validation appends
exactly one Vote Attempt record for its (poll, fingerprint, timestamp)
regardless of outcome — accepted, RateLimited or DuplicateVote — while a
request rejected at validation (NotFound or InvalidOption) appends none; and
once MAX_ATTEMPTS attempts of any outcome stand in the window, the next
validated request is RateLimited. -/
theorem attempt_logged_iff_validated (db : DB) (pid oid vid ip : String) (t : Int) :
    (db.polls.any (poll_option_filter pid oid) = true →
      (vote_poll db pid oid vid ip t).2.vote_attempts
        = db.vote_attempts ++ [{ poll_id := pid, ip_hash := ip, attempted_at := t }]) ∧
    (db.polls.any (poll_option_filter pid oid) = false →
      (vote_poll db pid oid vid ip t).2.vote_attempts = db.vote_attempts) ∧
    (db.polls.any (poll_option_filter pid oid) = true →
      RATE_LIMIT_MAX_ATTEMPTS ≤ db.vote_attempts.countP (in_window pid ip t) →
      (vote_poll db pid oid vid ip t).1 = .rateLimited) := by
  refine ⟨?_, ?_, ?_⟩
  · intro hval
    rw [vote_poll_of_valid db pid oid vid ip t hval]
    by_cases hrl : RATE_LIMIT_MAX_ATTEMPTS <
        db.vote_attempts.countP (in_window pid ip t) + 1
    · rw [if_pos hrl]
      rfl
    · rw [if_neg hrl]
      rw [vote_ledger_attempts (log_attempt db pid ip t) pid oid vid ip t]
      rfl
  · intro hval
    rw [vote_poll_of_invalid db pid oid vid ip t hval]
    cases hf : db.polls.find? (fun p => p.id == pid) <;> rfl
  · intro hval hfull
    rw [vote_poll_of_valid db pid oid vid ip t hval, if_pos (by omega)]

/-- C4 amended witness: a validated request appends its attempt record; an
unvalidated one leaves the attempt log untouched. -/
theorem attempt_logged_iff_validated_witness :
    (vote_poll demo_db0 "p" "oa" "v1" "f1" 1).2.vote_attempts
      = demo_db0.vote_attempts ++ [{ poll_id := "p", ip_hash := "f1", attempted_at := 1 }] ∧
    (vote_poll demo_db0 "q9" "oa" "v1" "f1" 1).2.vote_attempts = demo_db0.vote_attempts :=
  ⟨(attempt_logged_iff_validated demo_db0 "p" "oa" "v1" "f1" 1).1 (by decide),
   (attempt_logged_iff_validated demo_db0 "q9" "oa" "v1" "f1" 1).2.1 (by decide)⟩

/-- C5: in every reachable store each poll's version is exactly one more
than its accepted-vote count in the ledger — so versions start at 1, grow by
exactly 1 per accepted vote and never repeat; a freshly created poll has
version 1 and all counters zero; and no rejected request changes any poll. -/
theorem version_tracks_accepted_votes (db : DB) (hr : Reachable db) :
    (∀ p ∈ db.polls, p.version = 1 + db.votes.countP (fun v => v.poll_id == p.id)) ∧
    (∀ (q : String) (texts : List String) (pid : String) (oids : List String)
        (t : Int) (p : Poll), (create_poll db q texts pid oids t).1 = some p →
      p.version = 1 ∧ p.total_votes = 0 ∧ ∀ o ∈ p.options, o.votes = 0) ∧
    (∀ (pid oid vid ip : String) (t : Int),
      (vote_poll db pid oid vid ip t).1.isAccepted = false →
      (vote_poll db pid oid vid ip t).2.polls = db.polls) := by
  refine ⟨(reachable_DBInv db hr).2.2.1, ?_, ?_⟩
  · intro q texts pid oids t p hcp
    unfold create_poll at hcp
    cases hguard : db.polls.any (fun p => p.id == pid)
    · simp only [hguard, Bool.false_eq_true, if_false] at hcp
      obtain rfl : _ = p := Option.some.inj hcp
      refine ⟨rfl, rfl, ?_⟩
      intro o ho
      obtain ⟨pr, _, rfl⟩ := List.mem_map.mp ho
      rfl
    · simp [hguard] at hcp
  · intro pid oid vid ip t hna
    exact vote_poll_polls_of_not_accepted db pid oid vid ip t hna

/-- C5 witness: in the demo store with one accepted vote, every poll's
version is one more than its ledger count. -/
theorem version_tracks_accepted_votes_witness :
    demo_db1.polls.all
      (fun p => p.version == 1 + demo_db1.votes.countP (fun v => v.poll_id == p.id))
      = true := by
  have h := (version_tracks_accepted_votes demo_db1
    (Reachable.vote demo_db0 "p" "oa" "v1" "f1" 1
      (Reachable.create DB.empty "q" ["a", "b"] "p" ["oa", "ob"] 0 Reachable.init))).1
  rw [List.all_eq_true]
  intro p hp
  simp [h p hp]

/-- C6: option validation distinguishes the two absence cases through the
combined poll-and-option lookup: an absent poll yields NotFound (404) and a
present poll with a foreign option id yields InvalidOption (400), in both
cases with the store untouched. -/
theorem not_found_vs_invalid_option (db : DB) (pid oid vid ip : String) (t : Int) :
    (db.polls.any (fun p => p.id == pid) = false →
      vote_poll db pid oid vid ip t = (.notFound, db)) ∧
    (db.polls.any (fun p => p.id == pid) = true →
      db.polls.any (poll_option_filter pid oid) = false →
      vote_poll db pid oid vid ip t = (.invalidOption, db)) := by
  constructor
  · intro h404
    have hval : db.polls.any (poll_option_filter pid oid) = false := by
      cases hv : db.polls.any (poll_option_filter pid oid)
      · rfl
      · have hid := any_id_of_any_filter db.polls pid oid hv
        rw [h404] at hid
        exact absurd hid (by simp)
    rw [vote_poll_of_invalid db pid oid vid ip t hval]
    have hfind : db.polls.find? (fun p => p.id == pid) = none := by
      rw [List.find?_eq_none]
      intro x hx
      exact (List.any_eq_false.mp h404) x hx
    rw [hfind]
  · intro hex hval
    rw [vote_poll_of_invalid db pid oid vid ip t hval]
    obtain ⟨p, hp, hpe⟩ := List.any_eq_true.mp hex
    cases hfind : db.polls.find? (fun p => p.id == pid) with
    | none => exact absurd hpe ((List.find?_eq_none.mp hfind) p hp)
    | some _ => rfl

/-- C6 witness: on the demo store, a request naming an unknown poll id is
NotFound and a request naming the real poll with a foreign option id is
InvalidOption, each leaving the store unchanged. -/
theorem not_found_vs_invalid_option_witness :
    vote_poll demo_db0 "nope" "oa" "v1" "f1" 0 = (.notFound, demo_db0) ∧
    vote_poll demo_db0 "p" "zz" "v1" "f1" 0 = (.invalidOption, demo_db0) :=
  ⟨(not_found_vs_invalid_option demo_db0 "nope" "oa" "v1" "f1" 0).1 (by decide),
   (not_found_vs_invalid_option demo_db0 "p" "zz" "v1" "f1" 0).2 (by decide) (by decide)⟩

/-- C7 counterexample: after notify_poll_change fires on a poll whose event
no consumer is yet awaiting, the flag stays set, and a waiter that then
begins awaiting returns immediately on the stale firing — refuting that
every waiter arriving after a signal and before the next change blocks
until that next change. -/
theorem stale_firing_wakes_late_waiter :
    wait_returns_immediately (notify_poll_change PollEvents.initial "p") "p" = true := by
  rfl

/-- C7 amended: signal(pollId) sets the poll's flag, waking whoever is
awaiting it — and also releasing at once any waiter who begins to wait
before the flag is consumed; the flag is reset not by the signal but by a
stream consumer's clear after it wakes, and only after such a clear does a
newly arriving waiter block until the next change. -/
theorem signal_sets_and_wake_clear_resets (events : PollEvents) (pid : String) :
    wait_returns_immediately (notify_poll_change events pid) pid = true ∧
    wait_returns_immediately (stream_wake_clear events pid) pid = false := by
  constructor <;>
    simp [wait_returns_immediately, notify_poll_change, stream_wake_clear]

/-- C8: the IP fingerprint is a deterministic function of the salt and the
extracted address — equal inputs to the salted digest give equal outputs for
any digest function — and address extraction prefers the forwarded-for
header's first entry (trimmed) when non-empty, then the transport peer
address when non-empty, then the sentinel "unknown". -/
theorem fingerprint_deterministic_and_address_extraction :
    (∀ (digest : String → String) (salt a b : String), a = b →
      hash_ip digest salt a = hash_ip digest salt b) ∧
    (∀ (ff : String) (host : Option String), ff ≠ "" →
      strip ((split_comma ff).headD "") ≠ "" →
      get_client_ip ff host = strip ((split_comma ff).headD "")) ∧
    (∀ (ff h : String), (ff = "" ∨ strip ((split_comma ff).headD "") = "") →
      h ≠ "" → get_client_ip ff (some h) = h) ∧
    (∀ ff : String, (ff = "" ∨ strip ((split_comma ff).headD "") = "") →
      get_client_ip ff none = "unknown") ∧
    (∀ ff : String, (ff = "" ∨ strip ((split_comma ff).headD "") = "") →
      get_client_ip ff (some "") = "unknown") := by
  refine ⟨fun d salt a b hab => by rw [hab], ?_, ?_, ?_, ?_⟩
  · intro ff host hff hfirst
    unfold get_client_ip
    rw [if_pos hff, if_pos hfirst]
  · intro ff h hdisj hh
    unfold get_client_ip
    rcases hdisj with hempty | hfirst
    · rw [if_neg (by simp [hempty])]
      dsimp only
      rw [if_pos hh]
    · by_cases hffe : ff = ""
      · rw [if_neg (by simp [hffe])]
        dsimp only
        rw [if_pos hh]
      · rw [if_pos hffe, if_neg (fun hc => hc hfirst)]
        dsimp only
        rw [if_pos hh]
  · intro ff hdisj
    unfold get_client_ip
    rcases hdisj with hempty | hfirst
    · rw [if_neg (by simp [hempty])]
    · by_cases hffe : ff = ""
      · rw [if_neg (by simp [hffe])]
      · rw [if_pos hffe, if_neg (fun hc => hc hfirst)]
  · intro ff hdisj
    unfold get_client_ip
    rcases hdisj with hempty | hfirst
    · rw [if_neg (by simp [hempty])]
      dsimp only
      rw [if_neg (fun hc => hc rfl)]
    · by_cases hffe : ff = ""
      · rw [if_neg (by simp [hffe])]
        dsimp only
        rw [if_neg (fun hc => hc rfl)]
      · rw [if_pos hffe, if_neg (fun hc => hc hfirst)]
        dsimp only
        rw [if_neg (fun hc => hc rfl)]

/-- C8 witness: the forwarded-for header's first entry wins when present;
otherwise the peer address; otherwise "unknown". -/
theorem fingerprint_and_address_extraction_witness :
    get_client_ip " 1.2.3.4 ,9.9.9.9" (some "7.7.7.7") = "1.2.3.4" ∧
    get_client_ip "" (some "7.7.7.7") = "7.7.7.7" ∧
    get_client_ip "" none = "unknown" := by
  refine ⟨?_, ?_, ?_⟩
  · have h := fingerprint_deterministic_and_address_extraction.2.1
      " 1.2.3.4 ,9.9.9.9" (some "7.7.7.7") (by decide) (by decide)
    exact h.trans (by decide)
  · exact fingerprint_deterministic_and_address_extraction.2.2.1
      "" "7.7.7.7" (Or.inl rfl) (by decide)
  · exact fingerprint_deterministic_and_address_extraction.2.2.2.1
      "" (Or.inl rfl)

/-- C9: an accepted vote preserves every poll's id, question and creation
time, every option's id and text, the votes of every option other than the
chosen one, and every poll other than the target wholly — only the matched
option's counter and the target poll's total_votes, version and updated_at
move. -/
theorem accepted_vote_frame (db : DB) (pid oid vid ip : String) (t : Int)
    (hacc : (vote_poll db pid oid vid ip t).1.isAccepted = true) :
    List.Forall₂ (poll_frame pid oid) db.polls (vote_poll db pid oid vid ip t).2.polls := by
  cases hval : db.polls.any (poll_option_filter pid oid)
  · rw [vote_poll_of_invalid db pid oid vid ip t hval] at hacc ⊢
    cases hf : db.polls.find? (fun p => p.id == pid) <;>
      rw [hf] at hacc <;> simp [VoteOutcome.isAccepted] at hacc
  · rw [vote_poll_of_valid db pid oid vid ip t hval] at hacc ⊢
    by_cases hrl : RATE_LIMIT_MAX_ATTEMPTS <
        db.vote_attempts.countP (in_window pid ip t) + 1
    · rw [if_pos hrl] at hacc
      simp [VoteOutcome.isAccepted] at hacc
    · rw [if_neg hrl] at hacc ⊢
      cases hdup : db.votes.any (fun v => v.poll_id == pid && v.voter_id == vid)
      · obtain ⟨pw, hled⟩ :=
          vote_ledger_of_new (log_attempt db pid ip t) pid oid vid ip t hdup hval
        rw [hled]
        simp only [apply_update, insert_vote, log_attempt]
        exact poll_frame_forall₂_update db.polls pid oid t
      · rw [vote_ledger_of_duplicate (log_attempt db pid ip t) pid oid vid ip t hdup] at hacc
        simp [VoteOutcome.isAccepted] at hacc

/-- C9 witness: the accepted demo vote relates the store before and after
through the frame relation. -/
theorem accepted_vote_frame_witness :
    List.Forall₂ (poll_frame "p" "oa") demo_db0.polls
      (vote_poll demo_db0 "p" "oa" "v1" "f1" 1).2.polls :=
  accepted_vote_frame demo_db0 "p" "oa" "v1" "f1" 1 (by decide)

/-- C10: when the aggregate update after a successful ledger insert matches
no poll, the request ends InvalidOption (400), the inserted ledger vote is
not removed and no poll changes; consequently a later valid, under-limit
vote request by the same voter on that poll is DuplicateVote even though no
vote was counted. -/
theorem ledger_kept_on_update_miss (db : DB) (pid oid vid ip : String) (t : Int)
    (hnovote : db.votes.any (fun v => v.poll_id == pid && v.voter_id == vid) = false)
    (hnomatch : db.polls.any (poll_option_filter pid oid) = false) :
    (vote_ledger_and_update db pid oid vid ip t).1 = .invalidOption ∧
    (vote_ledger_and_update db pid oid vid ip t).2.votes
      = db.votes ++ [{ poll_id := pid, option_id := oid, voter_id := vid,
                       ip_hash := ip, created_at := t }] ∧
    (vote_ledger_and_update db pid oid vid ip t).2.polls = db.polls ∧
    (∀ (db2 : DB) (oid2 ip2 : String) (t2 : Int),
      db2.votes = (vote_ledger_and_update db pid oid vid ip t).2.votes →
      db2.polls.any (poll_option_filter pid oid2) = true →
      db2.vote_attempts.countP (in_window pid ip2 t2) + 1 ≤ RATE_LIMIT_MAX_ATTEMPTS →
      (vote_poll db2 pid oid2 vid ip2 t2).1 = .duplicateVote) := by
  rw [vote_ledger_of_no_match db pid oid vid ip t hnovote hnomatch]
  refine ⟨rfl, rfl, rfl, ?_⟩
  intro db2 oid2 ip2 t2 hv2 hval2 hrate2
  rw [vote_poll_of_valid db2 pid oid2 vid ip2 t2 hval2, if_neg (by omega)]
  have hdup2 : (log_attempt db2 pid ip2 t2).votes.any
      (fun v => v.poll_id == pid && v.voter_id == vid) = true := by
    show db2.votes.any _ = true
    rw [hv2]
    simp [insert_vote, List.any_append]
  rw [vote_ledger_of_duplicate (log_attempt db2 pid ip2 t2) pid oid2 vid ip2 t2 hdup2]

/-- C10 witness: a ledger insert whose follow-up update matches nothing
leaves the vote recorded, and the same voter's later valid request on that
poll is DuplicateVote. -/
theorem ledger_kept_on_update_miss_witness :
    (vote_ledger_and_update demo_db0 "p" "oz" "v1" "f1" 1).1 = .invalidOption ∧
    (vote_poll { polls := demo_db0.polls,
                 votes := (vote_ledger_and_update demo_db0 "p" "oz" "v1" "f1" 1).2.votes,
                 vote_attempts := [] } "p" "oa" "v1" "f2" 2).1 = .duplicateVote := by
  have h := ledger_kept_on_update_miss demo_db0 "p" "oz" "v1" "f1" 1 (by decide) (by decide)
  exact ⟨h.1, h.2.2.2 _ "oa" "f2" 2 rfl (by decide) (by decide)⟩

end PollApp
